import Mathlib

/-!
Verification of the core components of the wifi-deauther repository
(`src/core/buffer.rs`, `src/core/metrics.rs`, `src/core/engine.rs`)
against its natural-language specification.

The Rust code is shallowly embedded: machine integers become `Nat` with an
explicit `% 2 ^ 64` where a `u64` counter can wrap, `Instant` and `Duration`
become `Nat` nanosecond counts, `f64` quantities whose claims concern exact
ranges and ratios become `ℚ`, lock-free queues (`crossbeam::ArrayQueue`,
`crossbeam::SegQueue`, `tokio::sync::mpsc`) become Lean lists together with
the push/pop disciplines of those libraries, and the concurrent engine
becomes an explicit step relation on an engine-state record.
-/

/-- Wrap modulus of the 64-bit unsigned counters used throughout the code. -/
def u64Mod : Nat := 2 ^ 64

/-! ## Buffer pool (`src/core/buffer.rs`) -/

/-- Embedding of `bytes::BytesMut` as the pair of its capacity and current
length; the byte contents are irrelevant to every claim.  `with_capacity n`
yields capacity `n`, length `0`; `clear` sets the length to `0`. -/
structure BytesMut where
  capacity : Nat
  length : Nat
deriving DecidableEq, Repr

/-- Embedding of `BytesMut::with_capacity`. -/
def BytesMut.withCapacity (n : Nat) : BytesMut :=
  { capacity := n, length := 0 }

/-- Embedding of `BytesMut::clear`. -/
def BytesMut.clear (b : BytesMut) : BytesMut :=
  { b with length := 0 }

/-- State of `PacketBuffer` (buffer.rs lines 12-16): the `ArrayQueue` pool is
a FIFO list (head = next element popped), bounded by `pool_size`. -/
structure PacketBuffer where
  pool : List BytesMut
  buffer_size : Nat
  pool_size : Nat
deriving DecidableEq, Repr

/-- Push discipline of `crossbeam::queue::ArrayQueue::push`: appends at the
back when the queue holds fewer than `cap` elements, otherwise fails and
leaves the queue unchanged (the element is dropped by the caller). -/
def arrayQueuePush (cap : Nat) (q : List BytesMut) (b : BytesMut) : List BytesMut :=
  if q.length < cap then q ++ [b] else q

/-- Embedding of `PacketBuffer::new` (buffer.rs lines 20-35): the pool is
pre-populated with `pool_size` buffers of capacity `buffer_size` (every
`push` in the loop succeeds because the queue capacity is `pool_size`). -/
def PacketBuffer.new (pool_size buffer_size : Nat) : PacketBuffer :=
  { pool := List.replicate pool_size (BytesMut.withCapacity buffer_size)
    buffer_size := buffer_size
    pool_size := pool_size }

/-- Embedding of `PacketBuffer::acquire` (buffer.rs lines 39-51): pop from
the pool and clear, or fall back to a fresh allocation of the configured
size.  The Rust signature returns `Option<BytesMut>`; both branches return
`Some`. -/
def PacketBuffer.acquire (s : PacketBuffer) : Option BytesMut × PacketBuffer :=
  match s.pool with
  | b :: rest => (some b.clear, { s with pool := rest })
  | [] => (some (BytesMut.withCapacity s.buffer_size), s)

/-- Embedding of `PacketBuffer::release` (buffer.rs lines 55-64): only
buffers whose capacity matches `buffer_size` are cleared and pushed back;
a full pool makes the push fail and the buffer is dropped. -/
def PacketBuffer.release (s : PacketBuffer) (buffer : BytesMut) : PacketBuffer :=
  if buffer.capacity = s.buffer_size then
    { s with pool := arrayQueuePush s.pool_size s.pool buffer.clear }
  else
    s

/-- Embedding of `BufferStats` (buffer.rs lines 78-82). -/
structure BufferStats where
  available : Nat
  total : Nat
  buffer_size : Nat
deriving DecidableEq, Repr

/-- Embedding of `PacketBuffer::stats` (buffer.rs lines 67-73). -/
def PacketBuffer.stats (s : PacketBuffer) : BufferStats :=
  { available := s.pool.length, total := s.pool_size, buffer_size := s.buffer_size }

/-- State after `n` successive `acquire` calls (each discarding the returned
buffer). -/
def PacketBuffer.acquireN (s : PacketBuffer) : Nat → PacketBuffer
  | 0 => s
  | n + 1 => (s.acquire.2.acquireN n)

/-- States reachable from a given pool state by any interleaving of
`acquire` and `release` calls (with arbitrary released buffers). -/
inductive PacketBuffer.Reach : PacketBuffer → PacketBuffer → Prop
  | refl (s : PacketBuffer) : PacketBuffer.Reach s s
  | acquireStep {s t : PacketBuffer} :
      PacketBuffer.Reach s t → PacketBuffer.Reach s t.acquire.2
  | releaseStep {s t : PacketBuffer} (b : BytesMut) :
      PacketBuffer.Reach s t → PacketBuffer.Reach s (t.release b)

/-! ## Rate limiter (`src/core/engine.rs` lines 344-385) -/

/-- State of `RateLimiter` (engine.rs lines 345-349): `max_rate` is a `u32`,
`tokens` the `AtomicU64` token count, `last_refill` the `Instant` of the
last refill in nanoseconds. -/
structure RateLimiter where
  max_rate : Nat
  tokens : Nat
  last_refill : Nat
deriving DecidableEq, Repr

/-- Embedding of `RateLimiter::new` (engine.rs lines 352-358): the bucket
starts full (`max_rate` tokens) with the refill timestamp at construction
time. -/
def RateLimiter.new (max_rate now : Nat) : RateLimiter :=
  { max_rate := max_rate, tokens := max_rate, last_refill := now }

/-- Embedding of `RateLimiter::try_acquire` (engine.rs lines 360-384),
called at `Instant` `now` (nanoseconds).  `elapsed.as_secs()` is
`elapsed / 10^9` and `elapsed.subsec_millis()` is `elapsed % 10^9 / 10^6`;
the `u64` products and sum wrap modulo `2^64`; the refill (capped at
`max_rate` and updating `last_refill`) happens only when `tokens_to_add > 0`;
finally one token is taken when available. -/
def RateLimiter.try_acquire (s : RateLimiter) (now : Nat) : Bool × RateLimiter :=
  let elapsed := now - s.last_refill
  let elapsedSecs := elapsed / 1000000000
  let subsecMillis := elapsed % 1000000000 / 1000000
  let tokensToAdd :=
    (elapsedSecs * s.max_rate % u64Mod + subsecMillis * s.max_rate / 1000) % u64Mod
  let refilled : Nat × Nat :=
    if 0 < tokensToAdd then
      (min ((s.tokens + tokensToAdd) % u64Mod) s.max_rate, now)
    else
      (s.tokens, s.last_refill)
  if 0 < refilled.1 then
    (true, { s with tokens := refilled.1 - 1, last_refill := refilled.2 })
  else
    (false, { s with tokens := refilled.1, last_refill := refilled.2 })

/-- Number of successful `try_acquire` calls over a list of call instants. -/
def RateLimiter.runCalls (s : RateLimiter) : List Nat → Nat
  | [] => 0
  | t :: ts =>
    let r := s.try_acquire t
    (if r.1 then 1 else 0) + r.2.runCalls ts

/-! ## Metrics collector (`src/core/metrics.rs`) -/

/-- Embedding of the `Metrics` snapshot (metrics.rs lines 16-43).  `f64`
fields (`success_rate`, `channel_utilization`) are modelled in `ℚ`;
`DateTime<Utc>` becomes a `Nat` timestamp. -/
structure Metrics where
  packets_injected : Nat
  packets_per_second : Nat
  success_rate : ℚ
  bytes_transmitted : Nat
  channel_utilization : ℚ
  active_targets : Nat
  avg_latency_us : Nat
  peak_pps : Nat
  last_update : Nat
deriving DecidableEq, Repr

/-- Embedding of `Metrics::default` (metrics.rs lines 45-59), taking the
current time as a parameter. -/
def Metrics.default (now : Nat) : Metrics :=
  { packets_injected := 0, packets_per_second := 0, success_rate := 0
    bytes_transmitted := 0, channel_utilization := 0, active_targets := 0
    avg_latency_us := 0, peak_pps := 0, last_update := now }

/-- State of `MetricsCollector` (metrics.rs lines 62-89): the atomic `u64`
counters are `Nat` values kept below `2^64` by explicit wrapping, the three
`SegQueue`s are FIFO lists (head popped first, pushes append), durations
and instants are nanosecond counts. -/
structure MetricsCollector where
  packets_injected : Nat
  successful_injections : Nat
  bytes_transmitted : Nat
  active_targets : Nat
  packet_timestamps : List Nat
  latency_samples : List Nat
  channel_samples : List ℚ
  last_metrics : Metrics
  window_size : Nat
deriving DecidableEq, Repr

/-- Embedding of `MetricsCollector::new` (metrics.rs lines 93-105). -/
def MetricsCollector.new (window_size now : Nat) : MetricsCollector :=
  { packets_injected := 0, successful_injections := 0, bytes_transmitted := 0
    active_targets := 0, packet_timestamps := [], latency_samples := []
    channel_samples := [], last_metrics := Metrics.default now
    window_size := window_size }

/-- Embedding of `MetricsCollector::record_injection` (metrics.rs lines
108-123), called at `Instant` `now`: `fetch_add` on the `u64` counters
(wrapping), conditional success increment, and pushes of the timestamp and
the latency onto their queues. -/
def MetricsCollector.record_injection (s : MetricsCollector)
    (now bytes : Nat) (success : Bool) (latency : Nat) : MetricsCollector :=
  { s with
    packets_injected := (s.packets_injected + 1) % u64Mod
    bytes_transmitted := (s.bytes_transmitted + bytes) % u64Mod
    successful_injections :=
      if success then (s.successful_injections + 1) % u64Mod else s.successful_injections
    packet_timestamps := s.packet_timestamps ++ [now]
    latency_samples := s.latency_samples ++ [latency] }

/-- Embedding of `MetricsCollector::record_channel_utilization` (metrics.rs
lines 126-128): the sample is clamped into [0, 1] before being pushed. -/
def MetricsCollector.record_channel_utilization (s : MetricsCollector)
    (utilization : ℚ) : MetricsCollector :=
  { s with channel_samples := s.channel_samples ++ [min (max utilization 0) 1] }

/-- Embedding of `MetricsCollector::set_active_targets` (metrics.rs lines
131-133). -/
def MetricsCollector.set_active_targets (s : MetricsCollector) (count : Nat) :
    MetricsCollector :=
  { s with active_targets := count }

/-- Embedding of `MetricsCollector::calculate_metrics` (metrics.rs lines
136-241), called at `Instant` `now` (nanoseconds).  The timestamp queue is
drained and the entries within the trailing second are re-inserted in
order; the latency and utilization queues are fully drained, averaged over
every drained sample, and only the `window_size` most recent samples are
re-inserted (`.rev().take(window_size)` then pushed back reversed);
`avg_latency_us` is `(total / count).as_micros() as u64` where `Duration`
division is floor division on nanoseconds; the success rate is
`successful / total` (`0` when `total` is zero); `peak_pps` is the running
maximum; a new snapshot replaces the cached one. -/
def MetricsCollector.calculate_metrics (s : MetricsCollector) (now : Nat) :
    Metrics × MetricsCollector :=
  let oneSecondAgo := now - 1000000000
  let keptTimestamps := s.packet_timestamps.filter (fun t => decide (oneSecondAgo ≤ t))
  let recentPackets := keptTimestamps.length
  let totalLatency := s.latency_samples.sum
  let latencyCount := s.latency_samples.length
  let keptLatency := (s.latency_samples.reverse.take s.window_size).reverse
  let avgLatencyUs := if 0 < latencyCount then totalLatency / latencyCount / 1000 % u64Mod else 0
  let totalUtilization : ℚ := s.channel_samples.sum
  let utilizationCount := s.channel_samples.length
  let keptChannel := (s.channel_samples.reverse.take s.window_size).reverse
  let avgChannelUtilization : ℚ :=
    if 0 < utilizationCount then totalUtilization / (utilizationCount : ℚ) else 0
  let totalPackets := s.packets_injected
  let successRate : ℚ :=
    if 0 < totalPackets then (s.successful_injections : ℚ) / (totalPackets : ℚ) else 0
  let peakPps := max s.last_metrics.peak_pps recentPackets
  let m : Metrics :=
    { packets_injected := totalPackets
      packets_per_second := recentPackets
      success_rate := successRate
      bytes_transmitted := s.bytes_transmitted
      channel_utilization := avgChannelUtilization
      active_targets := s.active_targets
      avg_latency_us := avgLatencyUs
      peak_pps := peakPps
      last_update := now }
  (m, { s with
        packet_timestamps := keptTimestamps
        latency_samples := keptLatency
        channel_samples := keptChannel
        last_metrics := m })

/-- One `record_injection` call per list entry `(now, bytes, success,
latency)`, in order, as issued by the workers. -/
def MetricsCollector.applyTrace (s : MetricsCollector) :
    List (Nat × Nat × Bool × Nat) → MetricsCollector
  | [] => s
  | (now, bytes, success, latency) :: rest =>
    (s.record_injection now bytes success latency).applyTrace rest

/-- Sum of the `bytes` arguments of a trace of `record_injection` calls. -/
def traceBytes : List (Nat × Nat × Bool × Nat) → Nat
  | [] => 0
  | (_, bytes, _, _) :: rest => bytes + traceBytes rest

/-- Number of calls of a trace recorded with `success = true`. -/
def traceSuccesses : List (Nat × Nat × Bool × Nat) → Nat
  | [] => 0
  | (_, _, success, _) :: rest => (if success then 1 else 0) + traceSuccesses rest

/-! ## Per-target metrics (`src/core/metrics.rs` lines 264-312) -/

/-- Embedding of `MacAddress` ([u8; 6]) as its list of bytes. -/
structure MacAddress where
  bytes : List Nat
deriving DecidableEq, Repr

/-- Embedding of `TargetMetrics` (metrics.rs lines 266-271): the `f64`
success rate is modelled in `ℚ`, `last_seen` as a `Nat` timestamp. -/
structure TargetMetrics where
  mac_address : MacAddress
  packets_sent : Nat
  success_rate : ℚ
  last_seen : Nat
deriving DecidableEq, Repr

/-- State of `TargetMetricsCollector` (metrics.rs lines 274-276): the
`HashMap<MacAddress, TargetMetrics>` as an association list without
duplicate keys. -/
structure TargetMetricsCollector where
  targets : List (MacAddress × TargetMetrics)
deriving DecidableEq, Repr

/-- Embedding of `TargetMetricsCollector::new` (metrics.rs lines 279-283). -/
def TargetMetricsCollector.new : TargetMetricsCollector :=
  { targets := [] }

/-- Lookup in the association-list embedding of the hash map. -/
def lookupTarget : List (MacAddress × TargetMetrics) → MacAddress → Option TargetMetrics
  | [], _ => none
  | (k, v) :: rest, mac => if k = mac then some v else lookupTarget rest mac

/-- Insert-or-replace in the association-list embedding of the hash map. -/
def insertTarget : List (MacAddress × TargetMetrics) → MacAddress → TargetMetrics →
    List (MacAddress × TargetMetrics)
  | [], mac, v => [(mac, v)]
  | (k, w) :: rest, mac, v =>
    if k = mac then (k, v) :: rest else (k, w) :: insertTarget rest mac v

/-- Embedding of `TargetMetricsCollector::record_target_activity`
(metrics.rs lines 285-303), called at time `now`: the entry is created at
`success_rate = 0` on first activity, then `packets_sent` is incremented
(wrapping `u64`), `last_seen` updated, and the success rate becomes
`rate * 0.9 + 1.0 * 0.1` on success and `rate * 0.9 + 0.0 * 0.1` on
failure. -/
def TargetMetricsCollector.record_target_activity (c : TargetMetricsCollector)
    (mac : MacAddress) (success : Bool) (now : Nat) : TargetMetricsCollector :=
  let entry := (lookupTarget c.targets mac).getD
    { mac_address := mac, packets_sent := 0, success_rate := 0, last_seen := now }
  let updated : TargetMetrics :=
    { entry with
      packets_sent := (entry.packets_sent + 1) % u64Mod
      last_seen := now
      success_rate :=
        if success then entry.success_rate * (9 / 10) + 1 * (1 / 10)
        else entry.success_rate * (9 / 10) + 0 * (1 / 10) }
  { targets := insertTarget c.targets mac updated }

/-- Embedding of `TargetMetricsCollector::get_target_metrics` (metrics.rs
lines 305-307). -/
def TargetMetricsCollector.get_target_metrics (c : TargetMetricsCollector)
    (mac : MacAddress) : Option TargetMetrics :=
  lookupTarget c.targets mac

/-- One `record_target_activity` call per `(mac, success, now)` entry. -/
def TargetMetricsCollector.applyActivity (c : TargetMetricsCollector) :
    List (MacAddress × Bool × Nat) → TargetMetricsCollector
  | [] => c
  | (mac, success, now) :: rest =>
    (c.record_target_activity mac success now).applyActivity rest

/-! ## Injection engine control plane (`src/core/engine.rs`) -/

/-- Embedding of `InjectionRequest` (engine.rs lines 24-30): `reason_code`
is a `u16`, `count` a `u32`, `interval` a `Duration` in nanoseconds. -/
structure InjectionRequest where
  target : MacAddress
  access_point : MacAddress
  reason_code : Nat
  count : Nat
  interval : Nat
deriving DecidableEq, Repr

/-- Embedding of `EngineCommand` (engine.rs lines 101-106).  The
`GetMetrics` variant carries a `oneshot::Sender` reply handle in the
source; the handle plays no role in any claim and is omitted. -/
inductive EngineCommand where
  | startInjection (request : InjectionRequest)
  | stopInjection
  | shutdown
  | getMetrics
deriving DecidableEq, Repr

/-- State of a bounded `tokio::sync::mpsc` channel: the FIFO buffer (head
received first), the capacity fixed at creation, and whether the receiver
half has been dropped. -/
structure MpscChannel where
  buffer : List EngineCommand
  capacity : Nat
  closed : Bool
deriving DecidableEq, Repr

/-- Immediate outcome of `Sender::send(value).await`. -/
inductive SendOutcome where
  | ok (ch : MpscChannel)
  | wouldWait
  | errClosed
deriving DecidableEq, Repr

/-- Semantics of `tokio::sync::mpsc::Sender::send(value).await` at the
moment of the call: the send fails only when the channel is closed (the
receiver was dropped); when the bounded buffer is full the future is
pending — it waits for capacity instead of failing; otherwise the value is
appended to the buffer and the send completes with `Ok(())`. -/
def MpscChannel.send (ch : MpscChannel) (c : EngineCommand) : SendOutcome :=
  if ch.closed then .errClosed
  else if ch.buffer.length < ch.capacity then .ok { ch with buffer := ch.buffer ++ [c] }
  else .wouldWait

/-- Embedding of the `DeauthError` variant produced by the engine's
submission paths (lib.rs lines 21-41, engine.rs line 254). -/
inductive DeauthError where
  | injectionError (msg : String)
deriving DecidableEq, Repr

/-- Outcome of one `inject_deauth` call: `ok` returns `Ok(())` with the
channel now holding the command, `waits` means the `send(..).await` future
is pending on a full channel (no return value yet), `err` is `Err(..)`. -/
inductive InjectOutcome where
  | ok (ch : MpscChannel)
  | waits
  | err (e : DeauthError)
deriving DecidableEq, Repr

/-- Embedding of `DeauthEngine::inject_deauth` (engine.rs lines 236-257):
builds the `InjectionRequest`, sends `EngineCommand::StartInjection` on the
control channel, and maps a send error to
`DeauthError::InjectionError("Failed to submit request: ..")` (the
formatted message detail is abbreviated). -/
def DeauthEngine.inject_deauth (control : MpscChannel) (target access_point : MacAddress)
    (reason_code count interval : Nat) : InjectOutcome :=
  let request : InjectionRequest :=
    { target := target, access_point := access_point, reason_code := reason_code,
      count := count, interval := interval }
  match control.send (.startInjection request) with
  | .ok ch => .ok ch
  | .wouldWait => .waits
  | .errClosed => .err (.injectionError "Failed to submit request")

/-- Embedding of `EngineConfig` (engine.rs lines 34-55). -/
structure EngineConfig where
  worker_threads : Nat
  max_rate_per_worker : Nat
  buffer_pool_size : Nat
  buffer_size : Nat
  metrics_window : Nat
  rate_limiting : Bool
  max_targets : Nat
deriving DecidableEq, Repr

/-- Embedding of `EngineConfig::default` (engine.rs lines 57-69). -/
def EngineConfig.default : EngineConfig :=
  { worker_threads := 4, max_rate_per_worker := 1000, buffer_pool_size := 100
    buffer_size := 2048, metrics_window := 100, rate_limiting := true, max_targets := 50 }

/-- State of `DeauthEngine` (engine.rs lines 72-97): the bounded control
channel (`mpsc::channel(100)`), the unbounded `SegQueue` work queue as a
list, the shared running flag, the buffer pool, and the metrics
collector. -/
structure DeauthEngineState where
  control_channel : MpscChannel
  request_queue : List InjectionRequest
  running : Bool
  buffer_pool : PacketBuffer
  metrics_collector : MetricsCollector
deriving DecidableEq, Repr

/-- Embedding of `DeauthEngine::new` (engine.rs lines 117-141), which
always returns `Ok`: fresh pool and collector, empty work queue, running
flag set, control channel of capacity 100 with its receiver stored (and,
in the source, never read). -/
def DeauthEngine.new (config : EngineConfig) (now : Nat) : DeauthEngineState :=
  { control_channel := { buffer := [], capacity := 100, closed := false }
    request_queue := []
    running := true
    buffer_pool := PacketBuffer.new config.buffer_pool_size config.buffer_size
    metrics_collector := MetricsCollector.new config.metrics_window now }

/-- Embedding of the buffer-pool effect of `process_injection_request`
(engine.rs lines 310-342): acquire a buffer, build and serialize the
packet, release the buffer.  The serialized length comes from
`DeauthPacket::to_bytes` in `src/core/packet.rs`, which is declared in
`core/mod.rs` but absent from the sources; its length only feeds the
recorded byte count and is taken as a parameter of the worker step. -/
def process_injection_request (pool : PacketBuffer) : PacketBuffer :=
  match pool.acquire with
  | (some buffer, p) => p.release buffer
  | (none, p) => p

/-- One transition of the running engine.  The constructors are exactly the
actions the started system can take, read off `engine.rs`: a worker-loop
iteration that pops the work queue and records the injection
(`spawn_worker`, lines 167-205; the rate-limit sleep affects timing only),
the periodic metrics task (lines 216-232), and the public submission
entry points `inject_deauth` / `stop_injection` / `get_metrics` (lines
236-280) and `shutdown` (lines 288-306), which clears the running flag and
sends `Shutdown`.  The stored receiver `control_rx` (line 93, set at line
138) is never received from anywhere in the crate, so no transition
consumes the control channel. -/
inductive EngineStep : DeauthEngineState → DeauthEngineState → Prop where
  | workerPop (s : DeauthEngineState) (request : InjectionRequest)
      (rest : List InjectionRequest) (bytesSent now latency : Nat) :
      s.running = true →
      s.request_queue = request :: rest →
      EngineStep s
        { s with
          request_queue := rest
          buffer_pool := process_injection_request s.buffer_pool
          metrics_collector := s.metrics_collector.record_injection now bytesSent true latency }
  | metricsTick (s : DeauthEngineState) (now : Nat) :
      s.running = true →
      EngineStep s
        { s with metrics_collector := (s.metrics_collector.calculate_metrics now).2 }
  | submitCommand (s : DeauthEngineState) (c : EngineCommand) (ch : MpscChannel) :
      s.control_channel.send c = .ok ch →
      EngineStep s { s with control_channel := ch }
  | shutdownFlag (s : DeauthEngineState) :
      EngineStep s { s with running := false }

lemma PacketBuffer.acquireN_replicate (S N : Nat) :
    ∀ (k m : Nat),
      (PacketBuffer.mk (List.replicate m (BytesMut.withCapacity S)) S N).acquireN k
        = PacketBuffer.mk (List.replicate (m - k) (BytesMut.withCapacity S)) S N := by
  intro k
  induction k with
  | zero => intro m; simp [PacketBuffer.acquireN]
  | succ k ih =>
    intro m
    cases m with
    | zero =>
      have h0 := ih 0
      simp at h0
      simp [PacketBuffer.acquireN, PacketBuffer.acquire, h0]
    | succ j =>
      simp [PacketBuffer.acquireN, List.replicate_succ, PacketBuffer.acquire, ih j]

lemma PacketBuffer.reach_invariant {N S : Nat} {s : PacketBuffer}
    (h : PacketBuffer.Reach (PacketBuffer.new N S) s) :
    s.buffer_size = S ∧ ∀ b ∈ s.pool, b = BytesMut.withCapacity S := by
  induction h with
  | refl =>
    refine ⟨rfl, ?_⟩
    intro b hb
    exact List.eq_of_mem_replicate hb
  | acquireStep h ih =>
    rename_i t
    obtain ⟨hsz, hmem⟩ := ih
    cases hpool : t.pool with
    | nil =>
      have hstep : t.acquire.2 = t := by simp [PacketBuffer.acquire, hpool]
      rw [hstep]
      exact ⟨hsz, hmem⟩
    | cons c rest =>
      have hstep : t.acquire.2 = { t with pool := rest } := by
        simp [PacketBuffer.acquire, hpool]
      rw [hstep]
      refine ⟨hsz, ?_⟩
      intro b hb
      exact hmem b (by rw [hpool]; exact List.mem_cons_of_mem c hb)
  | releaseStep b h ih =>
    rename_i t
    obtain ⟨hsz, hmem⟩ := ih
    by_cases hcap : b.capacity = t.buffer_size
    · have hrel : t.release b =
          { t with pool := arrayQueuePush t.pool_size t.pool b.clear } := by
        simp [PacketBuffer.release, hcap]
      rw [hrel]
      refine ⟨hsz, ?_⟩
      intro c hc
      unfold arrayQueuePush at hc
      by_cases hlt : t.pool.length < t.pool_size
      · rw [if_pos hlt] at hc
        rcases List.mem_append.mp hc with hc | hc
        · exact hmem c hc
        · have hcb : c = b.clear := List.mem_singleton.mp hc
          subst hcb
          have hbS : b.capacity = S := hcap.trans hsz
          simp [BytesMut.clear, BytesMut.withCapacity, hbS]
      · rw [if_neg hlt] at hc
        exact hmem c hc
    · have hrel : t.release b = t := by simp [PacketBuffer.release, hcap]
      rw [hrel]
      exact ⟨hsz, hmem⟩

/-- C10: every buffer handed out by `acquire` is empty, and in every state
reachable from a freshly constructed pool by `acquire`/`release` calls,
every buffer resident in the pool has length 0 and capacity equal to the
configured buffer size. -/
theorem buffer_pool_buffers_empty (N S : Nat) (s : PacketBuffer)
    (h : PacketBuffer.Reach (PacketBuffer.new N S) s) :
    (∀ b ∈ s.pool, b.length = 0 ∧ b.capacity = S)
    ∧ (∀ b, s.acquire.1 = some b → b.length = 0) := by
  obtain ⟨hsz, hmem⟩ := PacketBuffer.reach_invariant h
  constructor
  · intro b hb
    rw [hmem b hb]
    exact ⟨rfl, rfl⟩
  · intro b hb
    cases hpool : s.pool with
    | nil =>
      simp [PacketBuffer.acquire, hpool] at hb
      rw [← hb]
      rfl
    | cons c rest =>
      simp [PacketBuffer.acquire, hpool] at hb
      rw [← hb]
      rfl

theorem buffer_pool_buffers_empty_witness :
    (∀ b ∈ ((PacketBuffer.new 2 8).acquire.2.release (BytesMut.mk 8 5)).pool,
        b.length = 0 ∧ b.capacity = 8)
    ∧ (∀ b, ((PacketBuffer.new 2 8).acquire.2.release (BytesMut.mk 8 5)).acquire.1 = some b →
        b.length = 0) :=
  buffer_pool_buffers_empty 2 8 _
    (PacketBuffer.Reach.releaseStep _ (PacketBuffer.Reach.acquireStep (PacketBuffer.Reach.refl _)))

/-- C6: `acquire` never fails (both branches return `some`), and for a pool
constructed with `N` buffers of size `S`, after `N` acquisitions and no
release the pool is empty (`stats().available = 0`), yet a further `acquire`
still succeeds and returns a freshly allocated empty buffer of capacity `S`,
leaving `available` at 0. -/
theorem buffer_acquire_never_fails (N S : Nat) (s : PacketBuffer) :
    s.acquire.1.isSome
    ∧ ((PacketBuffer.new N S).acquireN N).stats.available = 0
    ∧ ((PacketBuffer.new N S).acquireN N).acquire.1 = some (BytesMut.withCapacity S)
    ∧ ((PacketBuffer.new N S).acquireN N).acquire.2.stats.available = 0 := by
  have hN : (PacketBuffer.new N S).acquireN N
      = PacketBuffer.mk (List.replicate (N - N) (BytesMut.withCapacity S)) S N := by
    have := PacketBuffer.acquireN_replicate S N N N
    simpa [PacketBuffer.new] using this
  rw [hN]
  refine ⟨?_, ?_, ?_, ?_⟩
  · cases hpool : s.pool with
    | nil => simp [PacketBuffer.acquire, hpool]
    | cons c rest => simp [PacketBuffer.acquire, hpool]
  · simp [PacketBuffer.stats, Nat.sub_self]
  · simp [Nat.sub_self, PacketBuffer.acquire]
  · simp [Nat.sub_self, PacketBuffer.acquire, PacketBuffer.stats]

/-- C5 counterexample: with a pool of capacity 1 whose single buffer has
been acquired (pool empty, `available = 0`), a further `acquire` returns a
fresh buffer of the configured capacity, and releasing that same buffer
leaves `available = 1`, not the prior value 0 — the acquire/release
round-trip does not restore `available` in every pool state. -/
theorem buffer_roundtrip_counterexample :
    (PacketBuffer.new 1 16).acquire.2.stats.available = 0
    ∧ (PacketBuffer.new 1 16).acquire.2.acquire.1 = some (BytesMut.withCapacity 16)
    ∧ ((PacketBuffer.new 1 16).acquire.2.acquire.2.release
        (BytesMut.withCapacity 16)).stats.available = 1 := by
  decide

/-- C5 amended: provided every pooled buffer has the configured capacity and
the pool is within its capacity bound (invariants of reachable states), an
`acquire` that pops a buffer from a nonempty pool followed by a `release` of
that same buffer restores `stats().available`; releasing a buffer whose
capacity differs from the configured buffer size leaves the pool state
entirely unchanged; and a `release` when the pool is at capacity leaves
`available` unchanged (the buffer is silently discarded, never an error). -/
theorem buffer_release_roundtrip (s : PacketBuffer) (b x : BytesMut)
    (hcap : ∀ c ∈ s.pool, c.capacity = s.buffer_size)
    (hlen : s.pool.length ≤ s.pool_size) :
    (∀ b' s', s.pool ≠ [] → s.acquire = (some b', s') →
      (s'.release b').stats.available = s.stats.available)
    ∧ (x.capacity ≠ s.buffer_size → s.release x = s)
    ∧ (s.pool_size ≤ s.pool.length → (s.release b).stats.available = s.stats.available) := by
  refine ⟨?_, ?_, ?_⟩
  · intro b' s' hne hacq
    cases hpool : s.pool with
    | nil => exact absurd hpool hne
    | cons c rest =>
      have hacq' : s.acquire = (some c.clear, { s with pool := rest }) := by
        simp [PacketBuffer.acquire, hpool]
      rw [hacq'] at hacq
      have hb' : b' = c.clear := by
        injection hacq with h1 h2
        exact (Option.some.inj h1).symm
      have hs' : s' = { s with pool := rest } := by
        injection hacq with h1 h2
        exact h2.symm
      have hc : c.capacity = s.buffer_size :=
        hcap c (by rw [hpool]; exact List.mem_cons_self c rest)
      have hrest : rest.length < s.pool_size := by
        have hl : s.pool.length = rest.length + 1 := by rw [hpool]; rfl
        omega
      subst hb'
      subst hs'
      simp [PacketBuffer.release, BytesMut.clear, hc, arrayQueuePush, hrest,
        PacketBuffer.stats, hpool]
  · intro hx
    simp [PacketBuffer.release, hx]
  · intro hfull
    have hnlt : ¬ s.pool.length < s.pool_size := by omega
    unfold PacketBuffer.release
    by_cases hbc : b.capacity = s.buffer_size
    · simp [hbc, arrayQueuePush, hnlt, PacketBuffer.stats]
    · simp [hbc]

theorem buffer_release_roundtrip_witness :
    (∀ b' s', (PacketBuffer.new 3 16).pool ≠ [] → (PacketBuffer.new 3 16).acquire = (some b', s') →
      (s'.release b').stats.available = (PacketBuffer.new 3 16).stats.available)
    ∧ ((BytesMut.mk 7 0).capacity ≠ (PacketBuffer.new 3 16).buffer_size →
      (PacketBuffer.new 3 16).release (BytesMut.mk 7 0) = PacketBuffer.new 3 16)
    ∧ ((PacketBuffer.new 3 16).pool_size ≤ (PacketBuffer.new 3 16).pool.length →
      ((PacketBuffer.new 3 16).release (BytesMut.mk 16 0)).stats.available
        = (PacketBuffer.new 3 16).stats.available) :=
  buffer_release_roundtrip (PacketBuffer.new 3 16) (BytesMut.mk 16 0) (BytesMut.mk 7 0)
    (by decide) (by decide)

lemma RateLimiter.try_acquire_self (s : RateLimiter) :
    s.try_acquire s.last_refill =
      if 0 < s.tokens then (true, { s with tokens := s.tokens - 1 }) else (false, s) := by
  unfold RateLimiter.try_acquire
  simp [Nat.sub_self]

lemma RateLimiter.runCalls_const_le (n : Nat) :
    ∀ s : RateLimiter, s.runCalls (List.replicate n s.last_refill) ≤ s.tokens := by
  induction n with
  | zero => intro s; simp [RateLimiter.runCalls]
  | succ n ih =>
    intro s
    rw [List.replicate_succ]
    show (let r := s.try_acquire s.last_refill
      (if r.1 then 1 else 0) + r.2.runCalls (List.replicate n s.last_refill)) ≤ s.tokens
    rw [RateLimiter.try_acquire_self]
    by_cases htok : 0 < s.tokens
    · rw [if_pos htok]
      have ihs := ih { s with tokens := s.tokens - 1 }
      simp only at ihs
      simp only [if_true]
      omega
    · rw [if_neg htok]
      have ihs := ih s
      simp only [Bool.false_eq_true, if_false]
      omega

/-- C3 counterexample: for a limiter with `max_rate = 10` created at instant
0, ten calls at instant 0 all succeed, and — because the refill credits
fractional seconds via the sub-second millisecond remainder — five further
calls at instant 0.5 s also all succeed: 15 successful `try_acquire` calls
inside a window of 0.5 s, which is shorter than one second yet exceeds
`max_rate`. -/
theorem rate_limiter_window_counterexample :
    RateLimiter.runCalls (RateLimiter.new 10 0)
        (List.replicate 10 0 ++ List.replicate 5 500000000) = 15
    ∧ (500000000 : Nat) < 1000000000
    ∧ 10 < 15 := by
  refine ⟨?_, by norm_num, by norm_num⟩
  rfl

lemma RateLimiter.try_acquire_tokens_le (s : RateLimiter) (now : Nat)
    (h : s.tokens ≤ s.max_rate) :
    ((s.try_acquire now).2).tokens ≤ s.max_rate := by
  unfold RateLimiter.try_acquire
  by_cases hadd : 0 < ((now - s.last_refill) / 1000000000 * s.max_rate % u64Mod
      + (now - s.last_refill) % 1000000000 / 1000000 * s.max_rate / 1000) % u64Mod
  · simp only [if_pos hadd]
    by_cases hmin : 0 < min (((s.tokens
        + ((now - s.last_refill) / 1000000000 * s.max_rate % u64Mod
          + (now - s.last_refill) % 1000000000 / 1000000 * s.max_rate / 1000) % u64Mod))
        % u64Mod) s.max_rate
    · simp only [if_pos hmin]
      have := Nat.min_le_right (((s.tokens
        + ((now - s.last_refill) / 1000000000 * s.max_rate % u64Mod
          + (now - s.last_refill) % 1000000000 / 1000000 * s.max_rate / 1000) % u64Mod))
        % u64Mod) s.max_rate
      omega
    · simp only [if_neg hmin]
      exact Nat.min_le_right _ _
  · simp only [if_neg hadd]
    by_cases htok : 0 < s.tokens
    · simp only [if_pos htok]
      omega
    · simp only [if_neg htok]
      exact h

lemma RateLimiter.try_acquire_after_refill (s : RateLimiter) (now : Nat)
    (hR : 1 ≤ s.max_rate)
    (he : 1000000000 ≤ now - s.last_refill)
    (hov : (now - s.last_refill) / 1000000000 * s.max_rate
      + (now - s.last_refill) % 1000000000 / 1000000 * s.max_rate / 1000
      + s.tokens < u64Mod) :
    (s.try_acquire now).1 = true := by
  unfold RateLimiter.try_acquire
  set e := now - s.last_refill with he'
  have hsec : 1 ≤ e / 1000000000 := by
    have : (1000000000 : Nat) ≠ 0 := by norm_num
    exact (Nat.le_div_iff_mul_le (by norm_num)).mpr (by omega)
  have hsecR : 1 ≤ e / 1000000000 * s.max_rate := Nat.one_le_iff_ne_zero.mpr (by positivity)
  have h1 : e / 1000000000 * s.max_rate < u64Mod := by omega
  have h1' : e / 1000000000 * s.max_rate % u64Mod = e / 1000000000 * s.max_rate :=
    Nat.mod_eq_of_lt h1
  have h2 : e / 1000000000 * s.max_rate % u64Mod
      + e % 1000000000 / 1000000 * s.max_rate / 1000 < u64Mod := by
    rw [h1']; omega
  have h2' : (e / 1000000000 * s.max_rate % u64Mod
      + e % 1000000000 / 1000000 * s.max_rate / 1000) % u64Mod
      = e / 1000000000 * s.max_rate + e % 1000000000 / 1000000 * s.max_rate / 1000 := by
    rw [Nat.mod_eq_of_lt h2, h1']
  have hadd : 0 < (e / 1000000000 * s.max_rate % u64Mod
      + e % 1000000000 / 1000000 * s.max_rate / 1000) % u64Mod := by
    rw [h2']; omega
  simp only [if_pos hadd]
  have h3 : s.tokens + (e / 1000000000 * s.max_rate % u64Mod
      + e % 1000000000 / 1000000 * s.max_rate / 1000) % u64Mod < u64Mod := by
    rw [h2']; omega
  have h3' : (s.tokens + (e / 1000000000 * s.max_rate % u64Mod
      + e % 1000000000 / 1000000 * s.max_rate / 1000) % u64Mod) % u64Mod
      = s.tokens + (e / 1000000000 * s.max_rate % u64Mod
        + e % 1000000000 / 1000000 * s.max_rate / 1000) % u64Mod := Nat.mod_eq_of_lt h3
  have hmin : 0 < min ((s.tokens + (e / 1000000000 * s.max_rate % u64Mod
      + e % 1000000000 / 1000000 * s.max_rate / 1000) % u64Mod) % u64Mod) s.max_rate := by
    rw [h3', h2']
    have : 0 < s.tokens + (e / 1000000000 * s.max_rate
      + e % 1000000000 / 1000000 * s.max_rate / 1000) := by omega
    omega
  simp only [if_pos hmin]

/-- C3 amended: a limiter constructed with `max_rate = R` permits at most R
successful `try_acquire()` calls while no refill occurs (all calls at the
construction instant); the refill step caps the token count at `max_rate`,
so a bucket within capacity stays within capacity after any call; and once
at least one full second has elapsed since the last refill, the next
`try_acquire` succeeds (under a no-overflow bound on the 64-bit refill
arithmetic), so strictly more acquisitions become available after sleeping
at least one second. -/
theorem rate_limiter_tokens_bound (R t0 n : Nat) (s : RateLimiter) (now : Nat) :
    (RateLimiter.runCalls (RateLimiter.new R t0) (List.replicate n t0) ≤ R)
    ∧ (s.tokens ≤ s.max_rate → ((s.try_acquire now).2).tokens ≤ s.max_rate)
    ∧ (1 ≤ s.max_rate → 1000000000 ≤ now - s.last_refill →
        (now - s.last_refill) / 1000000000 * s.max_rate
          + (now - s.last_refill) % 1000000000 / 1000000 * s.max_rate / 1000
          + s.tokens < u64Mod →
        (s.try_acquire now).1 = true) :=
  ⟨RateLimiter.runCalls_const_le n (RateLimiter.new R t0),
   fun h => RateLimiter.try_acquire_tokens_le s now h,
   fun hR he hov => RateLimiter.try_acquire_after_refill s now hR he hov⟩

theorem rate_limiter_tokens_bound_witness :
    (RateLimiter.runCalls (RateLimiter.new 10 0) (List.replicate 12 0) ≤ 10)
    ∧ (((RateLimiter.new 3 0).try_acquire 2000000000).2).tokens ≤ 3
    ∧ ((RateLimiter.new 3 0).try_acquire 2000000000).1 = true :=
  ⟨(rate_limiter_tokens_bound 10 0 12 (RateLimiter.new 3 0) 2000000000).1,
   (rate_limiter_tokens_bound 10 0 12 (RateLimiter.new 3 0) 2000000000).2.1 (by decide),
   (rate_limiter_tokens_bound 10 0 12 (RateLimiter.new 3 0) 2000000000).2.2
     (by decide) (by norm_num [RateLimiter.new])
     (by norm_num [RateLimiter.new, u64Mod])⟩

lemma MetricsCollector.applyTrace_packets :
    ∀ (tr : List (Nat × Nat × Bool × Nat)) (s : MetricsCollector),
      s.packets_injected < u64Mod →
      (s.applyTrace tr).packets_injected = (s.packets_injected + tr.length) % u64Mod := by
  intro tr
  induction tr with
  | nil =>
    intro s hs
    simp [MetricsCollector.applyTrace, Nat.mod_eq_of_lt hs]
  | cons entry rest ih =>
    intro s hs
    obtain ⟨now, bytes, success, latency⟩ := entry
    have hM : 0 < u64Mod := by norm_num [u64Mod]
    have hlt : (s.packets_injected + 1) % u64Mod < u64Mod := Nat.mod_lt _ hM
    have := ih (s.record_injection now bytes success latency) (by
      simpa [MetricsCollector.record_injection] using hlt)
    rw [MetricsCollector.applyTrace, this]
    simp only [MetricsCollector.record_injection]
    rw [Nat.mod_add_mod]
    congr 1
    simp [List.length_cons]
    omega

lemma MetricsCollector.applyTrace_bytes :
    ∀ (tr : List (Nat × Nat × Bool × Nat)) (s : MetricsCollector),
      s.bytes_transmitted < u64Mod →
      (s.applyTrace tr).bytes_transmitted = (s.bytes_transmitted + traceBytes tr) % u64Mod := by
  intro tr
  induction tr with
  | nil =>
    intro s hs
    simp [MetricsCollector.applyTrace, traceBytes, Nat.mod_eq_of_lt hs]
  | cons entry rest ih =>
    intro s hs
    obtain ⟨now, bytes, success, latency⟩ := entry
    have hM : 0 < u64Mod := by norm_num [u64Mod]
    have hlt : (s.bytes_transmitted + bytes) % u64Mod < u64Mod := Nat.mod_lt _ hM
    have := ih (s.record_injection now bytes success latency) (by
      simpa [MetricsCollector.record_injection] using hlt)
    rw [MetricsCollector.applyTrace, this]
    simp only [MetricsCollector.record_injection]
    rw [Nat.mod_add_mod]
    rw [traceBytes]
    congr 1
    omega

lemma MetricsCollector.applyTrace_successful :
    ∀ (tr : List (Nat × Nat × Bool × Nat)) (s : MetricsCollector),
      s.successful_injections < u64Mod →
      (s.applyTrace tr).successful_injections
        = (s.successful_injections + traceSuccesses tr) % u64Mod := by
  intro tr
  induction tr with
  | nil =>
    intro s hs
    simp [MetricsCollector.applyTrace, traceSuccesses, Nat.mod_eq_of_lt hs]
  | cons entry rest ih =>
    intro s hs
    obtain ⟨now, bytes, success, latency⟩ := entry
    have hM : 0 < u64Mod := by norm_num [u64Mod]
    cases success with
    | true =>
      have hlt : (s.successful_injections + 1) % u64Mod < u64Mod := Nat.mod_lt _ hM
      have := ih (s.record_injection now bytes true latency) (by
        simpa [MetricsCollector.record_injection] using hlt)
      rw [MetricsCollector.applyTrace, this]
      simp only [MetricsCollector.record_injection, if_pos]
      rw [Nat.mod_add_mod]
      rw [traceSuccesses]
      congr 1
      simp
      omega
    | false =>
      have := ih (s.record_injection now bytes false latency) (by
        simpa [MetricsCollector.record_injection] using hs)
      rw [MetricsCollector.applyTrace, this]
      simp [MetricsCollector.record_injection, traceSuccesses]

lemma traceSuccesses_le_length (tr : List (Nat × Nat × Bool × Nat)) :
    traceSuccesses tr ≤ tr.length := by
  induction tr with
  | nil => simp [traceSuccesses]
  | cons entry rest ih =>
    obtain ⟨now, bytes, success, latency⟩ := entry
    rw [traceSuccesses]
    cases success <;> simp <;> omega

/-- C4: starting from a fresh collector, after any finite sequence of
`record_injection(bytes, success, latency)` calls (each a total state
update, never failing), `calculate_metrics` reports `packets_injected`
equal to the exact number of calls made and `bytes_transmitted` equal to
the exact sum of the `bytes` arguments, provided neither count overflows
the 64-bit counters. -/
theorem metrics_counts_exact (w t0 now : Nat) (tr : List (Nat × Nat × Bool × Nat))
    (hlen : tr.length < u64Mod) (hbytes : traceBytes tr < u64Mod) :
    (((MetricsCollector.new w t0).applyTrace tr).calculate_metrics now).1.packets_injected
      = tr.length
    ∧ (((MetricsCollector.new w t0).applyTrace tr).calculate_metrics now).1.bytes_transmitted
      = traceBytes tr := by
  have hp := MetricsCollector.applyTrace_packets tr (MetricsCollector.new w t0)
    (by norm_num [MetricsCollector.new, u64Mod])
  have hb := MetricsCollector.applyTrace_bytes tr (MetricsCollector.new w t0)
    (by norm_num [MetricsCollector.new, u64Mod])
  constructor
  · show ((MetricsCollector.new w t0).applyTrace tr).packets_injected = tr.length
    rw [hp]
    simpa [MetricsCollector.new] using Nat.mod_eq_of_lt hlen
  · show ((MetricsCollector.new w t0).applyTrace tr).bytes_transmitted = traceBytes tr
    rw [hb]
    simpa [MetricsCollector.new] using Nat.mod_eq_of_lt hbytes

theorem metrics_counts_exact_witness :
    (((MetricsCollector.new 100 0).applyTrace
        [(5, 100, true, 3000), (9, 200, false, 4000), (12, 50, true, 5000)]).calculate_metrics
        1000000000).1.packets_injected = 3
    ∧ (((MetricsCollector.new 100 0).applyTrace
        [(5, 100, true, 3000), (9, 200, false, 4000), (12, 50, true, 5000)]).calculate_metrics
        1000000000).1.bytes_transmitted = 350 :=
  metrics_counts_exact 100 0 1000000000
    [(5, 100, true, 3000), (9, 200, false, 4000), (12, 50, true, 5000)]
    (by norm_num [u64Mod]) (by norm_num [traceBytes, u64Mod])

/-- C9: starting from a fresh collector, after any finite sequence of
`record_injection` calls that does not overflow the 64-bit counters, the
snapshot's `success_rate` lies in [0, 1], equals the number of successful
injections divided by the total number of injections when that total is
positive, and is exactly 0 when no injection was recorded. -/
theorem metrics_success_rate_bounds (w t0 now : Nat) (tr : List (Nat × Nat × Bool × Nat))
    (hlen : tr.length < u64Mod) :
    (0 ≤ (((MetricsCollector.new w t0).applyTrace tr).calculate_metrics now).1.success_rate
      ∧ (((MetricsCollector.new w t0).applyTrace tr).calculate_metrics now).1.success_rate ≤ 1)
    ∧ (0 < tr.length →
        (((MetricsCollector.new w t0).applyTrace tr).calculate_metrics now).1.success_rate
          = (traceSuccesses tr : ℚ) / (tr.length : ℚ))
    ∧ (tr.length = 0 →
        (((MetricsCollector.new w t0).applyTrace tr).calculate_metrics now).1.success_rate
          = 0) := by
  have hsle := traceSuccesses_le_length tr
  have hp := MetricsCollector.applyTrace_packets tr (MetricsCollector.new w t0)
    (by norm_num [MetricsCollector.new, u64Mod])
  have hsucc := MetricsCollector.applyTrace_successful tr (MetricsCollector.new w t0)
    (by norm_num [MetricsCollector.new, u64Mod])
  have hp' : ((MetricsCollector.new w t0).applyTrace tr).packets_injected = tr.length := by
    rw [hp]; simpa [MetricsCollector.new] using Nat.mod_eq_of_lt hlen
  have hs' : ((MetricsCollector.new w t0).applyTrace tr).successful_injections
      = traceSuccesses tr := by
    rw [hsucc]
    have : traceSuccesses tr < u64Mod := lt_of_le_of_lt hsle hlen
    simpa [MetricsCollector.new] using Nat.mod_eq_of_lt this
  have hrate : (((MetricsCollector.new w t0).applyTrace tr).calculate_metrics now).1.success_rate
      = if 0 < tr.length then (traceSuccesses tr : ℚ) / (tr.length : ℚ) else 0 := by
    simp only [MetricsCollector.calculate_metrics, hp', hs']
  refine ⟨?_, ?_, ?_⟩
  · rw [hrate]
    by_cases hpos : 0 < tr.length
    · rw [if_pos hpos]
      constructor
      · positivity
      · rw [div_le_one (by exact_mod_cast hpos)]
        exact_mod_cast hsle
    · rw [if_neg hpos]
      norm_num
  · intro hpos
    rw [hrate, if_pos hpos]
  · intro hzero
    rw [hrate, if_neg (by omega)]

theorem metrics_success_rate_bounds_witness :
    (0 ≤ (((MetricsCollector.new 100 0).applyTrace
        [(5, 100, true, 3000), (9, 200, false, 4000)]).calculate_metrics 50).1.success_rate
      ∧ (((MetricsCollector.new 100 0).applyTrace
        [(5, 100, true, 3000), (9, 200, false, 4000)]).calculate_metrics 50).1.success_rate ≤ 1)
    ∧ (((MetricsCollector.new 100 0).applyTrace
        [(5, 100, true, 3000), (9, 200, false, 4000)]).calculate_metrics 50).1.success_rate
        = ((traceSuccesses [(5, 100, true, 3000), (9, 200, false, 4000)] : ℚ)
          / ((List.length [(5, 100, true, 3000), (9, 200, false, 4000)] : Nat) : ℚ))
    ∧ (((MetricsCollector.new 100 0).applyTrace
        ([] : List (Nat × Nat × Bool × Nat))).calculate_metrics 50).1.success_rate = 0 :=
  ⟨(metrics_success_rate_bounds 100 0 50 [(5, 100, true, 3000), (9, 200, false, 4000)]
      (by norm_num [u64Mod])).1,
   (metrics_success_rate_bounds 100 0 50 [(5, 100, true, 3000), (9, 200, false, 4000)]
      (by norm_num [u64Mod])).2.1 (by norm_num),
   (metrics_success_rate_bounds 100 0 50 ([] : List (Nat × Nat × Bool × Nat))
      (by norm_num [u64Mod])).2.2 (by norm_num)⟩

lemma reverse_take_reverse {α : Type} (l : List α) (n : Nat) :
    (l.reverse.take n).reverse = l.drop (l.length - n) := by
  rw [← List.rtake_eq_reverse_take_reverse]
  rfl

/-- C7: one `calculate_metrics` call drains the whole latency queue —
`avg_latency_us` is the floor mean (in whole microseconds) of every sample
present — while the queue retained for the next tick is exactly the suffix
of the `window_size` most recent samples; the channel-utilization queue
gets the same two-phase treatment, with `channel_utilization` the exact
mean of every drained sample. -/
theorem metrics_window_two_phase (s : MetricsCollector) (now : Nat) :
    ((s.calculate_metrics now).2.latency_samples
      = s.latency_samples.drop (s.latency_samples.length - s.window_size))
    ∧ ((s.calculate_metrics now).2.channel_samples
      = s.channel_samples.drop (s.channel_samples.length - s.window_size))
    ∧ (0 < s.latency_samples.length →
        (s.calculate_metrics now).1.avg_latency_us
          = s.latency_samples.sum / s.latency_samples.length / 1000 % u64Mod)
    ∧ (0 < s.channel_samples.length →
        (s.calculate_metrics now).1.channel_utilization
          = s.channel_samples.sum / (s.channel_samples.length : ℚ)) := by
  refine ⟨?_, ?_, ?_, ?_⟩
  · show (s.latency_samples.reverse.take s.window_size).reverse
      = s.latency_samples.drop (s.latency_samples.length - s.window_size)
    exact reverse_take_reverse _ _
  · show (s.channel_samples.reverse.take s.window_size).reverse
      = s.channel_samples.drop (s.channel_samples.length - s.window_size)
    exact reverse_take_reverse _ _
  · intro hpos
    show (if 0 < s.latency_samples.length
        then s.latency_samples.sum / s.latency_samples.length / 1000 % u64Mod else 0)
      = s.latency_samples.sum / s.latency_samples.length / 1000 % u64Mod
    rw [if_pos hpos]
  · intro hpos
    show (if 0 < s.channel_samples.length
        then s.channel_samples.sum / (s.channel_samples.length : ℚ) else 0)
      = s.channel_samples.sum / (s.channel_samples.length : ℚ)
    rw [if_pos hpos]

theorem metrics_window_two_phase_witness :
    (((MetricsCollector.mk 3 2 350 0 [0, 0, 0] [1000, 2000, 6000] [1/2, 1/4]
        (Metrics.default 0) 2).calculate_metrics 5).2.latency_samples
      = List.drop (List.length [1000, 2000, 6000] - 2) [1000, 2000, 6000])
    ∧ (((MetricsCollector.mk 3 2 350 0 [0, 0, 0] [1000, 2000, 6000] [1/2, 1/4]
        (Metrics.default 0) 2).calculate_metrics 5).2.channel_samples
      = List.drop (List.length [(1:ℚ)/2, 1/4] - 2) [(1:ℚ)/2, 1/4])
    ∧ (((MetricsCollector.mk 3 2 350 0 [0, 0, 0] [1000, 2000, 6000] [1/2, 1/4]
        (Metrics.default 0) 2).calculate_metrics 5).1.avg_latency_us
      = List.sum [1000, 2000, 6000] / List.length [1000, 2000, 6000] / 1000 % u64Mod)
    ∧ (((MetricsCollector.mk 3 2 350 0 [0, 0, 0] [1000, 2000, 6000] [1/2, 1/4]
        (Metrics.default 0) 2).calculate_metrics 5).1.channel_utilization
      = List.sum [(1:ℚ)/2, 1/4] / ((List.length [(1:ℚ)/2, 1/4] : Nat) : ℚ)) :=
  ⟨(metrics_window_two_phase (MetricsCollector.mk 3 2 350 0 [0, 0, 0] [1000, 2000, 6000]
      [1/2, 1/4] (Metrics.default 0) 2) 5).1,
   (metrics_window_two_phase (MetricsCollector.mk 3 2 350 0 [0, 0, 0] [1000, 2000, 6000]
      [1/2, 1/4] (Metrics.default 0) 2) 5).2.1,
   (metrics_window_two_phase (MetricsCollector.mk 3 2 350 0 [0, 0, 0] [1000, 2000, 6000]
      [1/2, 1/4] (Metrics.default 0) 2) 5).2.2.1 (by norm_num),
   (metrics_window_two_phase (MetricsCollector.mk 3 2 350 0 [0, 0, 0] [1000, 2000, 6000]
      [1/2, 1/4] (Metrics.default 0) 2) 5).2.2.2 (by norm_num)⟩

lemma lookupTarget_insertTarget (l : List (MacAddress × TargetMetrics))
    (mac' : MacAddress) (v : TargetMetrics) (mac : MacAddress) :
    lookupTarget (insertTarget l mac' v) mac
      = if mac' = mac then some v else lookupTarget l mac := by
  induction l with
  | nil =>
    simp [insertTarget, lookupTarget]
  | cons kv rest ih =>
    obtain ⟨k, w⟩ := kv
    by_cases hk : k = mac'
    · subst hk
      simp only [insertTarget, if_pos rfl]
      by_cases hm : k = mac
      · simp [lookupTarget, hm]
      · simp [lookupTarget, hm]
    · simp only [insertTarget, if_neg hk]
      by_cases hm : k = mac
      · have hmm : ¬ mac' = mac := fun h => hk (by rw [hm, h])
        simp [lookupTarget, hm, hmm]
      · simp [lookupTarget, hm, ih]

lemma record_target_preserves_bounds (c : TargetMetricsCollector) (m : MacAddress)
    (b : Bool) (now : Nat)
    (hc : ∀ mac t, lookupTarget c.targets mac = some t →
      0 ≤ t.success_rate ∧ t.success_rate ≤ 1) :
    ∀ mac t, lookupTarget ((c.record_target_activity m b now).targets) mac = some t →
      0 ≤ t.success_rate ∧ t.success_rate ≤ 1 := by
  intro mac t hl
  unfold TargetMetricsCollector.record_target_activity at hl
  simp only at hl
  rw [lookupTarget_insertTarget] at hl
  by_cases hm : m = mac
  · rw [if_pos hm] at hl
    have ht := (Option.some.inj hl).symm
    have hrr : t.success_rate
        = (if b then ((lookupTarget c.targets m).getD
              { mac_address := m, packets_sent := 0, success_rate := 0, last_seen := now
              }).success_rate * (9 / 10) + 1 * (1 / 10)
           else ((lookupTarget c.targets m).getD
              { mac_address := m, packets_sent := 0, success_rate := 0, last_seen := now
              }).success_rate * (9 / 10) + 0 * (1 / 10)) := by
      rw [ht]
    have hrate0 : 0 ≤ ((lookupTarget c.targets m).getD
        { mac_address := m, packets_sent := 0, success_rate := 0, last_seen := now }).success_rate
        ∧ ((lookupTarget c.targets m).getD
        { mac_address := m, packets_sent := 0, success_rate := 0, last_seen := now }).success_rate
        ≤ 1 := by
      cases hlk : lookupTarget c.targets m with
      | none => simp [hlk]
      | some u => simpa [hlk] using hc m u hlk
    obtain ⟨h0, h1⟩ := hrate0
    rw [hrr]
    cases b
    · rw [if_neg (by simp)]
      constructor <;> linarith
    · rw [if_pos rfl]
      constructor <;> linarith
  · rw [if_neg hm] at hl
    exact hc mac t hl

lemma applyActivity_rate_bounds :
    ∀ (tr : List (MacAddress × Bool × Nat)) (c : TargetMetricsCollector),
      (∀ mac t, lookupTarget c.targets mac = some t →
        0 ≤ t.success_rate ∧ t.success_rate ≤ 1) →
      ∀ mac t, lookupTarget ((c.applyActivity tr).targets) mac = some t →
        0 ≤ t.success_rate ∧ t.success_rate ≤ 1 := by
  intro tr
  induction tr with
  | nil =>
    intro c hc mac t h
    exact hc mac t h
  | cons entry rest ih =>
    intro c hc
    obtain ⟨m, b, now⟩ := entry
    exact ih (c.record_target_activity m b now) (record_target_preserves_bounds c m b now hc)

/-- C8: recording activity applies the exponential moving average
`rate' = 0.9 * rate + 0.1 * outcome` (outcome 1 on success, 0 on failure)
to the target's stored success rate; every success rate stored after any
activity sequence on a fresh per-target collector lies in [0, 1]; and the
sequence [success, success, failure] on one address yields exactly
0.171, strictly between the all-failure 0 and all-success 1 extremes. -/
theorem target_success_rate_ema (tr : List (MacAddress × Bool × Nat)) (mac : MacAddress)
    (t : TargetMetrics)
    (h : (TargetMetricsCollector.new.applyActivity tr).get_target_metrics mac = some t) :
    (0 ≤ t.success_rate ∧ t.success_rate ≤ 1)
    ∧ (∀ (c : TargetMetricsCollector) (m : MacAddress) (b : Bool) (now : Nat),
        Option.map (fun u => u.success_rate)
            ((c.record_target_activity m b now).get_target_metrics m)
          = some (((c.get_target_metrics m).getD
                { mac_address := m, packets_sent := 0, success_rate := 0, last_seen := now
                }).success_rate * (9 / 10)
              + (if b then 1 else 0) * (1 / 10)))
    ∧ (Option.map (fun u => u.success_rate)
        ((TargetMetricsCollector.new.applyActivity
            [(MacAddress.mk [17, 34, 51, 68, 85, 102], true, 0),
             (MacAddress.mk [17, 34, 51, 68, 85, 102], true, 1),
             (MacAddress.mk [17, 34, 51, 68, 85, 102], false, 2)]).get_target_metrics
          (MacAddress.mk [17, 34, 51, 68, 85, 102]))
        = some (171 / 1000))
    ∧ 0 < (171 / 1000 : ℚ) ∧ (171 / 1000 : ℚ) < 1 := by
  refine ⟨?_, ?_, ?_, ?_, ?_⟩
  · exact applyActivity_rate_bounds tr TargetMetricsCollector.new
      (by intro mac' t' h'; simp [TargetMetricsCollector.new, lookupTarget] at h') mac t h
  · intro c m b now
    unfold TargetMetricsCollector.get_target_metrics TargetMetricsCollector.record_target_activity
    simp only
    rw [lookupTarget_insertTarget, if_pos rfl]
    cases b
    · simp
    · simp
  · norm_num [TargetMetricsCollector.applyActivity, TargetMetricsCollector.record_target_activity,
      TargetMetricsCollector.get_target_metrics, TargetMetricsCollector.new, lookupTarget,
      insertTarget, u64Mod]
  · norm_num
  · norm_num

theorem target_success_rate_ema_witness :
    ((0 : ℚ) ≤ (TargetMetrics.mk (MacAddress.mk [17, 34, 51, 68, 85, 102]) 1 (1 / 10) 0).success_rate
      ∧ (TargetMetrics.mk (MacAddress.mk [17, 34, 51, 68, 85, 102]) 1 (1 / 10) 0).success_rate ≤ 1)
    ∧ (∀ (c : TargetMetricsCollector) (m : MacAddress) (b : Bool) (now : Nat),
        Option.map (fun u => u.success_rate)
            ((c.record_target_activity m b now).get_target_metrics m)
          = some (((c.get_target_metrics m).getD
                { mac_address := m, packets_sent := 0, success_rate := 0, last_seen := now
                }).success_rate * (9 / 10)
              + (if b then 1 else 0) * (1 / 10)))
    ∧ (Option.map (fun u => u.success_rate)
        ((TargetMetricsCollector.new.applyActivity
            [(MacAddress.mk [17, 34, 51, 68, 85, 102], true, 0),
             (MacAddress.mk [17, 34, 51, 68, 85, 102], true, 1),
             (MacAddress.mk [17, 34, 51, 68, 85, 102], false, 2)]).get_target_metrics
          (MacAddress.mk [17, 34, 51, 68, 85, 102]))
        = some (171 / 1000))
    ∧ 0 < (171 / 1000 : ℚ) ∧ (171 / 1000 : ℚ) < 1 :=
  target_success_rate_ema [(MacAddress.mk [17, 34, 51, 68, 85, 102], true, 0)]
    (MacAddress.mk [17, 34, 51, 68, 85, 102])
    (TargetMetrics.mk (MacAddress.mk [17, 34, 51, 68, 85, 102]) 1 (1 / 10) 0)
    (by norm_num [TargetMetricsCollector.applyActivity,
      TargetMetricsCollector.record_target_activity, TargetMetricsCollector.get_target_metrics,
      TargetMetricsCollector.new, lookupTarget, insertTarget, u64Mod])

lemma MpscChannel.send_ok_buffer {ch : MpscChannel} {c : EngineCommand} {ch' : MpscChannel}
    (h : ch.send c = .ok ch') : ch'.buffer = ch.buffer ++ [c] := by
  unfold MpscChannel.send at h
  by_cases hc : ch.closed = true
  · simp [hc] at h
  · by_cases hl : ch.buffer.length < ch.capacity
    · simp only [hc, if_false, Bool.false_eq_true, if_pos hl] at h
      have := SendOutcome.ok.inj h
      rw [← this]
    · simp [hc, hl] at h

lemma engine_reach_invariant {s t : DeauthEngineState}
    (h : Relation.ReflTransGen EngineStep s t) (hq : s.request_queue = []) :
    t.request_queue = [] ∧ ∀ c ∈ s.control_channel.buffer, c ∈ t.control_channel.buffer := by
  induction h with
  | refl => exact ⟨hq, fun c hc => hc⟩
  | tail hst hstep ih =>
    obtain ⟨hq', hmem⟩ := ih
    cases hstep with
    | workerPop request rest bytesSent now latency hrun hqueue =>
      rw [hq'] at hqueue
      exact absurd hqueue (by simp)
    | metricsTick now hrun =>
      exact ⟨hq', hmem⟩
    | submitCommand c ch hsend =>
      refine ⟨hq', ?_⟩
      intro c' hc'
      show c' ∈ ch.buffer
      rw [MpscChannel.send_ok_buffer hsend]
      exact List.mem_append_left _ (hmem c' hc')
    | shutdownFlag =>
      exact ⟨hq', hmem⟩

/-- C1 (code bug): after a successful `inject_deauth` on a freshly started
engine, in every state the running system can subsequently reach, the
submitted `StartInjection` command is still sitting unconsumed in the
control channel and the shared work queue is still empty — no dispatcher
transition exists (the stored `control_rx` is never read in the source), so
the request is never forwarded to the work queue and workers can never
dequeue it. -/
theorem engine_start_injection_never_dispatched (config : EngineConfig)
    (now : Nat) (target access_point : MacAddress) (reason_code count interval : Nat)
    (ch : MpscChannel) (t : DeauthEngineState)
    (hinj : DeauthEngine.inject_deauth (DeauthEngine.new config now).control_channel
      target access_point reason_code count interval = .ok ch)
    (hreach : Relation.ReflTransGen EngineStep
      { DeauthEngine.new config now with control_channel := ch } t) :
    EngineCommand.startInjection
        { target := target, access_point := access_point, reason_code := reason_code,
          count := count, interval := interval } ∈ t.control_channel.buffer
    ∧ t.request_queue = [] := by
  have hch : ch.buffer = [EngineCommand.startInjection
      { target := target, access_point := access_point, reason_code := reason_code,
        count := count, interval := interval }] := by
    have hsend : (DeauthEngine.new config now).control_channel.send
        (.startInjection
          { target := target, access_point := access_point, reason_code := reason_code,
            count := count, interval := interval })
        = .ok { buffer := [EngineCommand.startInjection
            { target := target, access_point := access_point, reason_code := reason_code,
              count := count, interval := interval }], capacity := 100, closed := false } := by
      simp [DeauthEngine.new, MpscChannel.send]
    unfold DeauthEngine.inject_deauth at hinj
    simp only [hsend] at hinj
    have := InjectOutcome.ok.inj hinj
    rw [← this]
  obtain ⟨hq, hmem⟩ := engine_reach_invariant hreach rfl
  refine ⟨?_, hq⟩
  apply hmem
  show EngineCommand.startInjection _ ∈ ch.buffer
  rw [hch]
  exact List.mem_singleton_self _

theorem engine_start_injection_never_dispatched_witness :
    EngineCommand.startInjection
        { target := MacAddress.mk [170, 187, 204, 221, 238, 255],
          access_point := MacAddress.mk [17, 34, 51, 68, 85, 102],
          reason_code := 7, count := 1, interval := 100000000 }
      ∈ ({ DeauthEngine.new EngineConfig.default 0 with
          control_channel :=
            { buffer := [EngineCommand.startInjection
                { target := MacAddress.mk [170, 187, 204, 221, 238, 255],
                  access_point := MacAddress.mk [17, 34, 51, 68, 85, 102],
                  reason_code := 7, count := 1, interval := 100000000 }],
              capacity := 100, closed := false } } : DeauthEngineState).control_channel.buffer
    ∧ ({ DeauthEngine.new EngineConfig.default 0 with
          control_channel :=
            { buffer := [EngineCommand.startInjection
                { target := MacAddress.mk [170, 187, 204, 221, 238, 255],
                  access_point := MacAddress.mk [17, 34, 51, 68, 85, 102],
                  reason_code := 7, count := 1, interval := 100000000 }],
              capacity := 100, closed := false } } : DeauthEngineState).request_queue = [] :=
  engine_start_injection_never_dispatched EngineConfig.default 0
    (MacAddress.mk [170, 187, 204, 221, 238, 255]) (MacAddress.mk [17, 34, 51, 68, 85, 102])
    7 1 100000000
    { buffer := [EngineCommand.startInjection
        { target := MacAddress.mk [170, 187, 204, 221, 238, 255],
          access_point := MacAddress.mk [17, 34, 51, 68, 85, 102],
          reason_code := 7, count := 1, interval := 100000000 }],
      capacity := 100, closed := false }
    _ rfl Relation.ReflTransGen.refl

/-- C2 counterexample: submitting to a full (100 pending commands), open
control channel does not surface an error to the caller — the
`send(..).await` future waits for capacity, so `inject_deauth` neither
returns `Ok` nor an error at that point; the claimed "full channel is a
send failure" behavior is false. -/
theorem inject_deauth_full_counterexample :
    DeauthEngine.inject_deauth
        { buffer := List.replicate 100 EngineCommand.stopInjection, capacity := 100,
          closed := false }
        (MacAddress.mk [170, 187, 204, 221, 238, 255]) (MacAddress.mk [17, 34, 51, 68, 85, 102])
        7 1 100000000
      = InjectOutcome.waits
    ∧ ∀ e : DeauthError,
        DeauthEngine.inject_deauth
            { buffer := List.replicate 100 EngineCommand.stopInjection, capacity := 100,
              closed := false }
            (MacAddress.mk [170, 187, 204, 221, 238, 255])
            (MacAddress.mk [17, 34, 51, 68, 85, 102]) 7 1 100000000
          ≠ InjectOutcome.err e := by
  have hx : DeauthEngine.inject_deauth
      { buffer := List.replicate 100 EngineCommand.stopInjection, capacity := 100,
        closed := false }
      (MacAddress.mk [170, 187, 204, 221, 238, 255]) (MacAddress.mk [17, 34, 51, 68, 85, 102])
      7 1 100000000 = InjectOutcome.waits := by
    simp [DeauthEngine.inject_deauth, MpscChannel.send]
  refine ⟨hx, ?_⟩
  intro e h
  rw [hx] at h
  exact InjectOutcome.noConfusion h

/-- C2 amended: `inject_deauth` enqueues a `StartInjection` command and
returns `Ok(())` whenever the control channel is open and below capacity;
it returns an error exactly when the channel is closed; when the channel is
full (and open) the send waits for capacity instead of surfacing a
failure. -/
theorem inject_deauth_send_semantics (control : MpscChannel)
    (target access_point : MacAddress) (reason_code count interval : Nat) :
    (control.closed = true →
      DeauthEngine.inject_deauth control target access_point reason_code count interval
        = InjectOutcome.err (.injectionError "Failed to submit request"))
    ∧ (control.closed = false → control.buffer.length < control.capacity →
      DeauthEngine.inject_deauth control target access_point reason_code count interval
        = InjectOutcome.ok { control with
            buffer := control.buffer ++ [EngineCommand.startInjection
              { target := target, access_point := access_point, reason_code := reason_code,
                count := count, interval := interval }] })
    ∧ (control.closed = false → ¬ control.buffer.length < control.capacity →
      DeauthEngine.inject_deauth control target access_point reason_code count interval
        = InjectOutcome.waits) := by
  refine ⟨?_, ?_, ?_⟩
  · intro hc
    simp [DeauthEngine.inject_deauth, MpscChannel.send, hc]
  · intro hc hl
    simp [DeauthEngine.inject_deauth, MpscChannel.send, hc, hl]
  · intro hc hl
    simp [DeauthEngine.inject_deauth, MpscChannel.send, hc, hl]

theorem inject_deauth_send_semantics_witness :
    (DeauthEngine.inject_deauth { buffer := [], capacity := 100, closed := true }
        (MacAddress.mk [1, 2, 3, 4, 5, 6]) (MacAddress.mk [7, 8, 9, 10, 11, 12]) 7 1 0
      = InjectOutcome.err (.injectionError "Failed to submit request"))
    ∧ (DeauthEngine.inject_deauth { buffer := [], capacity := 100, closed := false }
        (MacAddress.mk [1, 2, 3, 4, 5, 6]) (MacAddress.mk [7, 8, 9, 10, 11, 12]) 7 1 0
      = InjectOutcome.ok { buffer := [EngineCommand.startInjection
          { target := MacAddress.mk [1, 2, 3, 4, 5, 6],
            access_point := MacAddress.mk [7, 8, 9, 10, 11, 12],
            reason_code := 7, count := 1, interval := 0 }], capacity := 100, closed := false })
    ∧ (DeauthEngine.inject_deauth
        { buffer := [EngineCommand.getMetrics], capacity := 1, closed := false }
        (MacAddress.mk [1, 2, 3, 4, 5, 6]) (MacAddress.mk [7, 8, 9, 10, 11, 12]) 7 1 0
      = InjectOutcome.waits) :=
  ⟨(inject_deauth_send_semantics { buffer := [], capacity := 100, closed := true }
      (MacAddress.mk [1, 2, 3, 4, 5, 6]) (MacAddress.mk [7, 8, 9, 10, 11, 12]) 7 1 0).1 rfl,
   by
    have h := (inject_deauth_send_semantics { buffer := [], capacity := 100, closed := false }
      (MacAddress.mk [1, 2, 3, 4, 5, 6]) (MacAddress.mk [7, 8, 9, 10, 11, 12]) 7 1 0).2.1
      rfl (by decide)
    simpa using h,
   (inject_deauth_send_semantics
      { buffer := [EngineCommand.getMetrics], capacity := 1, closed := false }
      (MacAddress.mk [1, 2, 3, 4, 5, 6]) (MacAddress.mk [7, 8, 9, 10, 11, 12]) 7 1 0).2.2
      rfl (by decide)⟩
